import Mathlib

/-!
# Recipe-management API: formal model and verification

A shallow embedding of the recipe-management web API (users, token
authentication, and owner-scoped CRUD over recipes, tags and ingredients).
The repository ships the API's test suite and a thin user-views module; the
model layer, serializers and recipe views are not part of the source tree,
so the operations below are modelled from the specification document
(sections 3, 4, 6 and 7) and checked for consistency with the behaviour
pinned down by the test suite.
-/

namespace RecipeApi

/-- Modelled from the spec: passwords are "stored only as a salted hash"
(spec 4.1).  A hashed password is a salt together with a digest. -/
structure Hashed where
  salt : Nat
  digest : Nat
deriving DecidableEq, Repr

/-- Modelled from the spec: the digest of a password under a given salt
(a concrete executable stand-in for the framework hash). -/
def mkDigest (salt : Nat) (pw : String) : Nat :=
  pw.data.foldl (fun h c => h * 31 + c.toNat) (salt * 131 + 7)

/-- Modelled from the spec: hashing a plaintext password with a salt. -/
def hashPassword (salt : Nat) (pw : String) : Hashed :=
  ⟨salt, mkDigest salt pw⟩

/-- Modelled from the spec: checking a plaintext password against a stored
salted hash (re-hash with the stored salt and compare digests). -/
def checkPassword (pw : String) (h : Hashed) : Bool :=
  mkDigest h.salt pw == h.digest

/-- User record (spec 3): id, unique email, name, hashed password, flags. -/
structure User where
  id : Nat
  email : String
  name : String
  passwordHash : Hashed
  isActive : Bool
  isStaff : Bool
deriving DecidableEq, Repr

/-- Tag record (spec 3): id, name, owning user. -/
structure Tag where
  id : Nat
  name : String
  user : Nat
deriving DecidableEq, Repr

/-- Ingredient record (spec 3): id, name, owning user. -/
structure Ingredient where
  id : Nat
  name : String
  user : Nat
deriving DecidableEq, Repr

/-- Recipe record (spec 3): scalar fields, optional image path, owning
user, and many-to-many associations to tags and ingredients (kept as id
lists, spec 9 "explicit join-table entities"). -/
structure Recipe where
  id : Nat
  title : String
  time_minutes : Nat
  price : Nat
  link : String
  image : Option String
  user : Nat
  tags : List Nat
  ingredients : List Nat
deriving DecidableEq, Repr

/-- The persistent store: user table, recipe-domain tables, and the file
storage holding uploaded image paths (spec 2). -/
structure Db where
  users : List User
  tags : List Tag
  ingredients : List Ingredient
  recipes : List Recipe
  files : List String
deriving DecidableEq, Repr

/-- Well-formedness of the store: primary keys are unique and user emails
are unique across the system (spec 3 invariants). -/
def Db.WF (db : Db) : Prop :=
  (db.users.map User.email).Nodup ∧
  (db.tags.map Tag.id).Nodup ∧
  (db.ingredients.map Ingredient.id).Nodup ∧
  (db.recipes.map Recipe.id).Nodup

instance (db : Db) : Decidable db.WF := by
  unfold Db.WF; infer_instance

/-! ## Ordering relations used by the list endpoints (spec 4.2) -/

/-- "Ordered by name descending" for tags. -/
def tagGe (a b : Tag) : Prop := b.name ≤ a.name

instance : DecidableRel tagGe := fun a b =>
  inferInstanceAs (Decidable (b.name ≤ a.name))

instance : IsTotal Tag tagGe := ⟨fun a b => le_total b.name a.name⟩

instance : IsTrans Tag tagGe := ⟨fun _ _ _ h1 h2 => le_trans h2 h1⟩

/-- "Ordered by name descending" for ingredients. -/
def ingGe (a b : Ingredient) : Prop := b.name ≤ a.name

instance : DecidableRel ingGe := fun a b =>
  inferInstanceAs (Decidable (b.name ≤ a.name))

instance : IsTotal Ingredient ingGe := ⟨fun a b => le_total b.name a.name⟩

instance : IsTrans Ingredient ingGe := ⟨fun _ _ _ h1 h2 => le_trans h2 h1⟩

/-- "Ordered by id descending" for recipes. -/
def recipeGe (a b : Recipe) : Prop := b.id ≤ a.id

instance : DecidableRel recipeGe := fun a b =>
  inferInstanceAs (Decidable (b.id ≤ a.id))

instance : IsTotal Recipe recipeGe := ⟨fun a b => le_total b.id a.id⟩

instance : IsTrans Recipe recipeGe := ⟨fun _ _ _ h1 h2 => le_trans h2 h1⟩

/-! ## Tag / Ingredient listing (spec 4.2) -/

/-- Modelled from the spec: a tag is "referenced by at least one Recipe
belonging to the owner (via the many-to-many join)" (spec 4.2). -/
def tagAssigned (db : Db) (uid : Nat) (t : Tag) : Bool :=
  db.recipes.any (fun r => r.user == uid && r.tags.contains t.id)

/-- Modelled from the spec: an ingredient is referenced by at least one of
the owner's recipes (spec 4.2). -/
def ingAssigned (db : Db) (uid : Nat) (i : Ingredient) : Bool :=
  db.recipes.any (fun r => r.user == uid && r.ingredients.contains i.id)

/-- Modelled from the spec: `list(owner, filters)` for tags — all tags
owned by the caller, restricted by `assigned_only` (with duplicate rows
collapsed), ordered by name descending (spec 4.2). -/
def listTags (db : Db) (uid : Nat) (assignedOnly : Bool) : List Tag :=
  let owned := db.tags.filter (fun t => t.user == uid)
  let sel := if assignedOnly
    then (owned.filter (tagAssigned db uid)).dedup
    else owned
  List.insertionSort tagGe sel

/-- Modelled from the spec: `list(owner, filters)` for ingredients
(spec 4.2), mirroring `listTags`. -/
def listIngredients (db : Db) (uid : Nat) (assignedOnly : Bool) :
    List Ingredient :=
  let owned := db.ingredients.filter (fun i => i.user == uid)
  let sel := if assignedOnly
    then (owned.filter (ingAssigned db uid)).dedup
    else owned
  List.insertionSort ingGe sel

/-! ## Recipe listing and filtering (spec 4.2, 4.3) -/

/-- Modelled from the spec: query parameters `tags` / `ingredients` are
"comma-separated id lists" (spec 4.3). -/
def paramToIds (qs : String) : List Nat :=
  (qs.splitOn ",").filterMap String.toNat?

/-- Modelled from the spec: `list_recipes(owner, tags?, ingredients?)` —
the caller's recipes, restricted (when a filter is present) to recipes
associated with at least one id in the list (OR semantics), ordered by id
descending (spec 4.2, 4.3). -/
def listRecipes (db : Db) (uid : Nat) (tagsQ ingredientsQ : Option String) :
    List Recipe :=
  let owned := db.recipes.filter (fun r => r.user == uid)
  let afterTags := match tagsQ with
    | some qs => owned.filter (fun r => (paramToIds qs).any (fun i => r.tags.contains i))
    | none => owned
  let afterIngs := match ingredientsQ with
    | some qs => afterTags.filter (fun r => (paramToIds qs).any (fun i => r.ingredients.contains i))
    | none => afterTags
  List.insertionSort recipeGe afterIngs

/-! ## Recipe detail operations (spec 4.2) -/

/-- Modelled from the spec: the ownership-scoped lookup backing retrieve,
update and delete — "fails with NotFound if no entity with that id is
owned by caller" (spec 4.2). -/
def getRecipe (db : Db) (uid rid : Nat) : Option Recipe :=
  db.recipes.find? (fun r => r.user == uid && r.id == rid)

/-- Modelled from the spec: `retrieve(owner, id)` (spec 4.2); 404 when the
entity is absent or not owned. -/
def retrieveRecipe (db : Db) (uid rid : Nat) : Except Nat Recipe :=
  match getRecipe db uid rid with
  | some r => .ok r
  | none => .error 404

/-- An update payload: each field optionally present (spec 4.2). -/
structure RecipePayload where
  title : Option String
  time_minutes : Option Nat
  price : Option Nat
  link : Option String
  tags : Option (List Nat)
  ingredients : Option (List Nat)
deriving DecidableEq, Repr

/-- Modelled from the spec: full-update semantics — provided fields are
applied and "unspecified many-to-many fields cleared" (spec 4.2). -/
def applyPut (r : Recipe) (p : RecipePayload) : Recipe :=
  { r with
    title := p.title.getD r.title
    time_minutes := p.time_minutes.getD r.time_minutes
    price := p.price.getD r.price
    link := p.link.getD r.link
    tags := p.tags.getD []
    ingredients := p.ingredients.getD [] }

/-- Modelled from the spec: partial-update semantics — "only provided
fields changed" (spec 4.2). -/
def applyPatch (r : Recipe) (p : RecipePayload) : Recipe :=
  { r with
    title := p.title.getD r.title
    time_minutes := p.time_minutes.getD r.time_minutes
    price := p.price.getD r.price
    link := p.link.getD r.link
    tags := p.tags.getD r.tags
    ingredients := p.ingredients.getD r.ingredients }

/-- Replace the recipe row with the given id (the single-row write of an
update, spec 5). -/
def setRecipe (db : Db) (rid : Nat) (r' : Recipe) : Db :=
  { db with recipes := db.recipes.map (fun r => if r.id == rid then r' else r) }

/-- Modelled from the spec: `update(owner, id, attrs)` with full (PUT)
semantics; NotFound when the recipe is absent or not owned (spec 4.2). -/
def putRecipe (db : Db) (uid rid : Nat) (p : RecipePayload) : Except Nat Db :=
  match getRecipe db uid rid with
  | some r => .ok (setRecipe db rid (applyPut r p))
  | none => .error 404

/-- Modelled from the spec: `update(owner, id, attrs)` with partial
(PATCH) semantics; NotFound when the recipe is absent or not owned
(spec 4.2). -/
def patchRecipe (db : Db) (uid rid : Nat) (p : RecipePayload) : Except Nat Db :=
  match getRecipe db uid rid with
  | some r => .ok (setRecipe db rid (applyPatch r p))
  | none => .error 404

/-- Modelled from the spec: `delete(owner, id)` — NotFound when absent or
not owned; "deleting a recipe removes its stored image file as a side
effect" (spec 4.2, 4.4). -/
def deleteRecipe (db : Db) (uid rid : Nat) : Except Nat Db :=
  match getRecipe db uid rid with
  | some r =>
      .ok { db with
        recipes := db.recipes.filter (fun x => !(x.id == rid)),
        files := match r.image with
          | some pth => db.files.filter (fun f => !(f == pth))
          | none => db.files }
  | none => .error 404

/-! ## User endpoints (spec 4.1, 6) -/

/-- An HTTP-ish response: a status code and a flat key/value body. -/
structure Resp where
  status : Nat
  body : List (String × String)
deriving DecidableEq, Repr

/-- Whether a response body contains the given key. -/
def hasKey (k : String) (body : List (String × String)) : Bool :=
  body.any (fun kv => kv.1 == k)

/-- Modelled from the spec: a valid (non-missing) email address, for the
"email missing/invalid" validation of spec 4.1. -/
def validEmail (e : String) : Bool :=
  e.length != 0 && e.data.contains '@'

/-- The serialized user returned on creation: "201 + user (no password)"
(spec 6). -/
def userBody (u : User) : List (String × String) :=
  [("email", u.email), ("name", u.name)]

/-- Modelled from the spec: `create_user(email, password, name?)` — fails
with ValidationError (400) if the email is missing/invalid, the password
is shorter than 8 characters, or the email is already taken; otherwise
stores the user with a salted password hash and answers 201 with the user
body (spec 4.1, 6; uniqueness from spec 3). -/
def create_user (db : Db) (email pw name : String) : Resp × Db :=
  if !validEmail email then (⟨400, [("email", "invalid")]⟩, db)
  else if pw.length < 8 then (⟨400, [("password", "too short")]⟩, db)
  else if db.users.any (fun u => u.email == email) then
    (⟨400, [("email", "already exists")]⟩, db)
  else
    let salt := db.users.length + 1
    let u : User :=
      ⟨db.users.length + 1, email, name, hashPassword salt pw, true, false⟩
    (⟨201, userBody u⟩, { db with users := db.users ++ [u] })

/-- Modelled from the spec: the opaque token issued for a user (spec
glossary; "one token per user"). -/
def tokenFor (u : User) : String := "token-" ++ toString u.id

/-- Modelled from the spec: `POST /user/token` — 200 with a `token` key
when the credentials match a stored active user; 400 (never 401) with no
`token` key when a field is missing/empty, the email is unknown, the
password is wrong, or the user is inactive (spec 4.1, 6, 7). -/
def tokenPost (db : Db) (email pw : String) : Resp :=
  if email.isEmpty || pw.isEmpty then ⟨400, [("detail", "field required")]⟩
  else match db.users.find? (fun u => u.email == email) with
    | some u =>
        if u.isActive && checkPassword pw u.passwordHash then
          ⟨200, [("token", tokenFor u)]⟩
        else ⟨400, [("non_field_errors", "unable to authenticate")]⟩
    | none => ⟨400, [("non_field_errors", "unable to authenticate")]⟩

/-- HTTP methods reaching the `/user/me` endpoint. -/
inductive Method where
  | get | post | put | patch | delete
deriving DecidableEq, Repr

/-- Modelled from the spec: dispatch at `GET/PATCH /user/me` — a missing
or invalid token answers 401 before any method check; with a valid token,
only GET and PATCH are allowed, every other method answers 405
(spec 4.1, 6, 7). -/
def meDispatch (tokenValid : Bool) (m : Method) : Nat :=
  if !tokenValid then 401
  else match m with
    | .get => 200
    | .patch => 200
    | _ => 405

/-! ## Concrete fixtures (used to instantiate the theorems below) -/

/-- A concrete user, fixture for instantiating the theorems. -/
def uW : User :=
  ⟨1, "alice@example.com", "Alice", hashPassword 1 "password123", true, false⟩

/-- A concrete recipe owned by user 1, carrying an image. -/
def rW1 : Recipe := ⟨1, "Cake", 30, 5, "", some "img1.jpg", 1, [1], [1]⟩

/-- A concrete recipe owned by user 2. -/
def rW2 : Recipe := ⟨2, "Pie", 20, 4, "", none, 2, [2], [2]⟩

/-- A concrete tag owned by user 1, attached to recipe 1. -/
def tW1 : Tag := ⟨1, "Vegan", 1⟩

/-- A concrete ingredient owned by user 1, attached to recipe 1. -/
def iW1 : Ingredient := ⟨1, "Salt", 1⟩

/-- A concrete well-formed store, fixture for instantiating the theorems. -/
def dbW : Db :=
  { users := [uW],
    tags := [tW1, ⟨2, "Dessert", 2⟩],
    ingredients := [iW1, ⟨2, "Sugar", 2⟩],
    recipes := [rW1, rW2],
    files := ["img1.jpg"] }

/-- A concrete partial-update payload that omits the many-to-many fields. -/
def pW : RecipePayload := ⟨some "New title", none, none, none, none, none⟩

/-! ## Helper lemmas -/

/-- Membership in a tag listing, unfolded. -/
theorem mem_listTags_iff (db : Db) (uid : Nat) (ao : Bool) (t : Tag) :
    t ∈ listTags db uid ao ↔
      t ∈ db.tags ∧ t.user = uid ∧ (ao = true → tagAssigned db uid t = true) := by
  unfold listTags
  rw [List.mem_insertionSort]
  cases ao <;>
    simp [List.mem_dedup, List.mem_filter, and_assoc] <;>
    tauto

/-- Membership in an ingredient listing, unfolded. -/
theorem mem_listIngredients_iff (db : Db) (uid : Nat) (ao : Bool)
    (i : Ingredient) :
    i ∈ listIngredients db uid ao ↔
      i ∈ db.ingredients ∧ i.user = uid ∧
        (ao = true → ingAssigned db uid i = true) := by
  unfold listIngredients
  rw [List.mem_insertionSort]
  cases ao <;>
    simp [List.mem_dedup, List.mem_filter, and_assoc] <;>
    tauto

/-- Replacing the row found by an ownership-scoped lookup: when recipe ids
are unique, the scoped `find?` after `setRecipe` returns the replacement
row, provided it keeps the id and owner. -/
theorem find?_map_update (l : List Recipe) (uid rid : Nat) (r r' : Recipe)
    (hnd : (l.map Recipe.id).Nodup)
    (hfind : l.find? (fun x => x.user == uid && x.id == rid) = some r)
    (hid : r'.id = rid) (huser : r'.user = uid) :
    (l.map (fun x => if x.id == rid then r' else x)).find?
      (fun x => x.user == uid && x.id == rid) = some r' := by
  induction l with
  | nil => simp at hfind
  | cons a l ih =>
    rw [List.map_cons] at hnd ⊢
    rw [List.nodup_cons] at hnd
    by_cases ha : (a.user == uid && a.id == rid) = true
    · have ha' := ha
      simp only [Bool.and_eq_true] at ha'
      rw [ha'.2, if_pos rfl]
      exact List.find?_cons_of_pos _ (by simp [hid, huser])
    · have hb : (a.user == uid && a.id == rid) = false := by
        cases h : (a.user == uid && a.id == rid) with
        | false => rfl
        | true => exact absurd h ha
      rw [List.find?_cons, hb] at hfind
      have hfind' :
          List.find? (fun x => x.user == uid && x.id == rid) l = some r :=
        hfind
      have hrmem : r ∈ l := List.mem_of_find?_eq_some hfind'
      have hrid : r.id = rid := by
        have hp := List.find?_some hfind'
        simp only [Bool.and_eq_true, beq_iff_eq] at hp
        exact hp.2
      have haid : (a.id == rid) = false := by
        by_contra hcon
        have h1 : a.id = rid := by
          have h2 : (a.id == rid) = true := by
            cases h : (a.id == rid) with
            | false => exact absurd h hcon
            | true => rfl
          exact beq_iff_eq.mp h2
        have hmm : a.id ∈ List.map Recipe.id l := by
          rw [h1, ← hrid]
          exact List.mem_map_of_mem Recipe.id hrmem
        exact hnd.1 hmm
      rw [haid, if_neg Bool.false_ne_true]
      rw [List.find?_cons, hb]
      exact ih hnd.2 hfind'

/-- An ownership-scoped lookup succeeds exactly on a stored row with the
requested id owned by the caller. -/
theorem getRecipe_some (db : Db) (uid rid : Nat) (r : Recipe)
    (h : getRecipe db uid rid = some r) :
    r ∈ db.recipes ∧ r.user = uid ∧ r.id = rid := by
  have hp := List.find?_some h
  simp only [Bool.and_eq_true, beq_iff_eq] at hp
  exact ⟨List.mem_of_find?_eq_some h, hp.1, hp.2⟩

/-- Membership in a recipe listing, unfolded. -/
theorem mem_listRecipes_iff (db : Db) (uid : Nat) (tq iq : Option String)
    (r : Recipe) :
    r ∈ listRecipes db uid tq iq ↔
      r ∈ db.recipes ∧ r.user = uid ∧
      (∀ qs, tq = some qs → ∃ i ∈ paramToIds qs, i ∈ r.tags) ∧
      (∀ qs, iq = some qs → ∃ i ∈ paramToIds qs, i ∈ r.ingredients) := by
  unfold listRecipes
  rw [List.mem_insertionSort]
  cases tq <;> cases iq <;>
    simp [List.mem_filter, List.any_eq_true, and_assoc] <;>
    aesop

/-! ## Claim theorems -/

/-- C10: every request to `/user/me` without a valid token answers 401
regardless of HTTP method (the authentication check precedes the
method-allowed check), while an authenticated POST answers 405, GET and
PATCH being the only allowed methods. -/
theorem me_endpoint_auth_before_method :
    meDispatch false Method.get = 401 ∧ meDispatch false Method.post = 401 ∧
    meDispatch false Method.put = 401 ∧ meDispatch false Method.patch = 401 ∧
    meDispatch false Method.delete = 401 ∧
    meDispatch true Method.post = 405 ∧ meDispatch true Method.put = 405 ∧
    meDispatch true Method.delete = 405 ∧
    meDispatch true Method.get = 200 ∧ meDispatch true Method.patch = 200 := by
  decide

/-- C7: an authenticated list call returns exactly the caller's entities
(a permutation of the owner-filtered table), ordered by name descending
for tags and ingredients and by id descending for recipes. -/
theorem list_results_exact_and_ordered (db : Db) (uid : Nat) :
    ((listTags db uid false).Perm
        (db.tags.filter (fun t => t.user == uid)) ∧
      (listTags db uid false).Sorted tagGe) ∧
    ((listIngredients db uid false).Perm
        (db.ingredients.filter (fun i => i.user == uid)) ∧
      (listIngredients db uid false).Sorted ingGe) ∧
    ((listRecipes db uid none none).Perm
        (db.recipes.filter (fun r => r.user == uid)) ∧
      (listRecipes db uid none none).Sorted recipeGe) :=
  ⟨⟨List.perm_insertionSort tagGe _, List.sorted_insertionSort tagGe _⟩,
   ⟨List.perm_insertionSort ingGe _, List.sorted_insertionSort ingGe _⟩,
   ⟨List.perm_insertionSort recipeGe _, List.sorted_insertionSort recipeGe _⟩⟩

/-- C5: a create-user request with a password shorter than 8 characters
fails with 400 and leaves the user store unchanged; in particular no user
record with the given email exists afterwards when none existed before. -/
theorem short_password_rejected (db : Db) (email pw name : String)
    (hpw : pw.length < 8) (hfresh : ∀ u ∈ db.users, u.email ≠ email) :
    (create_user db email pw name).1.status = 400 ∧
    (create_user db email pw name).2 = db ∧
    ∀ u ∈ (create_user db email pw name).2.users, u.email ≠ email := by
  have h : (create_user db email pw name).1.status = 400 ∧
      (create_user db email pw name).2 = db := by
    unfold create_user
    split
    all_goals exact ⟨rfl, rfl⟩
  refine ⟨h.1, h.2, ?_⟩
  rw [h.2]
  exact hfresh

/-- C9: deleting a recipe that has a stored image file removes that file
from storage as a side effect of the delete operation. -/
theorem delete_recipe_removes_image (db : Db) (uid rid : Nat) (r : Recipe)
    (pth : String) (hget : getRecipe db uid rid = some r)
    (him : r.image = some pth) :
    ∃ db', deleteRecipe db uid rid = Except.ok db' ∧ pth ∉ db'.files := by
  unfold deleteRecipe
  rw [hget]
  refine ⟨_, rfl, ?_⟩
  simp only [him]
  intro hmem
  rw [List.mem_filter] at hmem
  simp at hmem

/-- C3: a recipe list request with a `tags` (resp. `ingredients`) query
parameter returns exactly the caller's recipes associated with at least
one id of the comma-separated list (OR semantics); with both parameters
absent, no such restriction is applied. -/
theorem recipe_filter_or_semantics (db : Db) (uid : Nat) (qs : String)
    (r : Recipe) :
    (r ∈ listRecipes db uid (some qs) none ↔
      r ∈ db.recipes ∧ r.user = uid ∧ ∃ i ∈ paramToIds qs, i ∈ r.tags) ∧
    (r ∈ listRecipes db uid none (some qs) ↔
      r ∈ db.recipes ∧ r.user = uid ∧
        ∃ i ∈ paramToIds qs, i ∈ r.ingredients) ∧
    (r ∈ listRecipes db uid none none ↔ r ∈ db.recipes ∧ r.user = uid) := by
  refine ⟨?_, ?_, ?_⟩ <;> rw [mem_listRecipes_iff] <;> simp

/-- C2: with `assigned_only=1`, a tag or ingredient listing never returns
an entity associated with zero of the caller's recipes, and never returns
duplicate entries. -/
theorem assigned_only_nonempty_and_unique (db : Db) (uid : Nat) :
    (∀ t ∈ listTags db uid true,
      ∃ r ∈ db.recipes, r.user = uid ∧ t.id ∈ r.tags) ∧
    (listTags db uid true).Nodup ∧
    (∀ i ∈ listIngredients db uid true,
      ∃ r ∈ db.recipes, r.user = uid ∧ i.id ∈ r.ingredients) ∧
    (listIngredients db uid true).Nodup := by
  refine ⟨?_, ?_, ?_, ?_⟩
  · intro t ht
    have h := ((mem_listTags_iff db uid true t).mp ht).2.2 rfl
    unfold tagAssigned at h
    rw [List.any_eq_true] at h
    obtain ⟨r, hr, hp⟩ := h
    simp only [Bool.and_eq_true, beq_iff_eq] at hp
    exact ⟨r, hr, hp.1, by simpa using hp.2⟩
  · exact ((List.perm_insertionSort tagGe _).nodup_iff).mpr
      (List.nodup_dedup _)
  · intro i hi
    have h := ((mem_listIngredients_iff db uid true i).mp hi).2.2 rfl
    unfold ingAssigned at h
    rw [List.any_eq_true] at h
    obtain ⟨r, hr, hp⟩ := h
    simp only [Bool.and_eq_true, beq_iff_eq] at hp
    exact ⟨r, hr, hp.1, by simpa using hp.2⟩
  · exact ((List.perm_insertionSort ingGe _).nodup_iff).mpr
      (List.nodup_dedup _)

/-- C6: a token request whose credentials do not match a stored active
user — wrong password, unknown email, inactive user, or an empty field —
answers 400 (never 401) with no `token` key in the body; matching
credentials of an active user answer 200 with a token. -/
theorem token_issuance_spec (db : Db) (email pw : String) (hwf : db.WF) :
    (((tokenPost db email pw).status = 400 ∧
        hasKey "token" (tokenPost db email pw).body = false) ∨
      ((tokenPost db email pw).status = 200 ∧
        hasKey "token" (tokenPost db email pw).body = true)) ∧
    ((tokenPost db email pw).status = 200 ↔
      email ≠ "" ∧ pw ≠ "" ∧ ∃ u ∈ db.users, u.email = email ∧
        u.isActive = true ∧ checkPassword pw u.passwordHash = true) := by
  by_cases hef : (email.isEmpty || pw.isEmpty) = true
  · have hred : tokenPost db email pw =
        ⟨400, [("detail", "field required")]⟩ := by
      unfold tokenPost
      rw [if_pos hef]
    rw [hred]
    refine ⟨Or.inl ⟨rfl, by decide⟩, ?_⟩
    simp only [Bool.or_eq_true, String.isEmpty_iff] at hef
    constructor
    · intro h
      exact absurd h (by decide)
    · rintro ⟨he, hp, -⟩
      cases hef with
      | inl h => exact absurd h he
      | inr h => exact absurd h hp
  · simp only [Bool.or_eq_true, String.isEmpty_iff, not_or] at hef
    have hef' : (email.isEmpty || pw.isEmpty) = true → False := by
      simp only [Bool.or_eq_true, String.isEmpty_iff]
      rintro (h | h)
      · exact hef.1 h
      · exact hef.2 h
    cases hfind : db.users.find? (fun u => u.email == email) with
    | none =>
      have hred : tokenPost db email pw =
          ⟨400, [("non_field_errors", "unable to authenticate")]⟩ := by
        unfold tokenPost
        rw [if_neg hef', hfind]
      rw [List.find?_eq_none] at hfind
      rw [hred]
      refine ⟨Or.inl ⟨rfl, by decide⟩, ?_⟩
      constructor
      · intro h
        exact absurd h (by decide)
      · rintro ⟨-, -, u, hu, hue, -, -⟩
        exact (hfind u hu (by simp [hue])).elim
    | some u =>
      have humem : u ∈ db.users := List.mem_of_find?_eq_some hfind
      have huem : u.email = email := by
        have hp := List.find?_some hfind
        exact beq_iff_eq.mp hp
      by_cases hok : (u.isActive && checkPassword pw u.passwordHash) = true
      · have hred : tokenPost db email pw =
            ⟨200, [("token", tokenFor u)]⟩ := by
          unfold tokenPost
          rw [if_neg hef', hfind]
          exact if_pos hok
        rw [hred]
        simp only [Bool.and_eq_true] at hok
        refine ⟨Or.inr ⟨rfl, rfl⟩, ?_⟩
        constructor
        · intro _
          exact ⟨hef.1, hef.2, u, humem, huem, hok.1, hok.2⟩
        · intro _
          rfl
      · have hred : tokenPost db email pw =
            ⟨400, [("non_field_errors", "unable to authenticate")]⟩ := by
          unfold tokenPost
          rw [if_neg hef', hfind]
          exact if_neg hok
        rw [hred]
        refine ⟨Or.inl ⟨rfl, by decide⟩, ?_⟩
        constructor
        · intro h
          exact absurd h (by decide)
        · rintro ⟨-, -, u', hu', hue', hact', hck'⟩
          have huu : u' = u :=
            List.inj_on_of_nodup_map hwf.1 hu' humem (by rw [hue', huem])
          subst huu
          exact (hok (by rw [hact', hck']; rfl)).elim

/-- C8: a valid create-user request answers 201, the response body carries
the user's fields but never a password field, and the stored record holds
a salted hash of the password against which the original plaintext checks
successfully. -/
theorem create_user_success_spec (db : Db) (email pw name : String)
    (hem : validEmail email = true) (hpw : 8 ≤ pw.length)
    (hfresh : ∀ u ∈ db.users, u.email ≠ email) :
    (create_user db email pw name).1.status = 201 ∧
    hasKey "password" (create_user db email pw name).1.body = false ∧
    (create_user db email pw name).1.body =
      [("email", email), ("name", name)] ∧
    ∃ u ∈ (create_user db email pw name).2.users,
      u.email = email ∧ u.name = name ∧
        checkPassword pw u.passwordHash = true := by
  have hred : create_user db email pw name =
      (⟨201, userBody ⟨db.users.length + 1, email, name,
          hashPassword (db.users.length + 1) pw, true, false⟩⟩,
        { db with users := db.users ++
            [⟨db.users.length + 1, email, name,
              hashPassword (db.users.length + 1) pw, true, false⟩] }) := by
    unfold create_user
    rw [if_neg (by simp [hem])]
    rw [if_neg (by omega)]
    rw [if_neg ?hany]
    case hany =>
      intro hcon
      rw [List.any_eq_true] at hcon
      obtain ⟨u, hu, he⟩ := hcon
      exact hfresh u hu (beq_iff_eq.mp he)
  rw [hred]
  refine ⟨rfl, rfl, rfl, ?_⟩
  refine ⟨⟨db.users.length + 1, email, name,
    hashPassword (db.users.length + 1) pw, true, false⟩, ?_, rfl, rfl, ?_⟩
  · simp
  · simp [checkPassword, hashPassword]

/-- C1: a list call by a user B over recipes, tags or ingredients returns
only entities owned by B, and a retrieve, update or delete call by B on an
entity owned by a different user A fails with NotFound (404). -/
theorem ownership_isolation (db : Db) (a b : Nat) (hab : a ≠ b)
    (hwf : db.WF) :
    (∀ ao : Bool, ∀ t ∈ listTags db b ao, t.user = b) ∧
    (∀ ao : Bool, ∀ i ∈ listIngredients db b ao, i.user = b) ∧
    (∀ tq iq : Option String, ∀ r ∈ listRecipes db b tq iq, r.user = b) ∧
    (∀ r ∈ db.recipes, r.user = a →
      retrieveRecipe db b r.id = Except.error 404 ∧
      (∀ p, putRecipe db b r.id p = Except.error 404) ∧
      (∀ p, patchRecipe db b r.id p = Except.error 404) ∧
      deleteRecipe db b r.id = Except.error 404) := by
  refine ⟨?_, ?_, ?_, ?_⟩
  · intro ao t ht
    exact ((mem_listTags_iff db b ao t).mp ht).2.1
  · intro ao i hi
    exact ((mem_listIngredients_iff db b ao i).mp hi).2.1
  · intro tq iq r hr
    exact ((mem_listRecipes_iff db b tq iq r).mp hr).2.1
  · intro r hrmem hruser
    have hnone : getRecipe db b r.id = none := by
      unfold getRecipe
      rw [List.find?_eq_none]
      intro x hx hp
      simp only [Bool.and_eq_true, beq_iff_eq] at hp
      have hxr : x = r :=
        List.inj_on_of_nodup_map hwf.2.2.2 hx hrmem hp.2
      refine hab ?_
      rw [← hruser, ← hp.1, hxr]
    refine ⟨?_, ?_, ?_, ?_⟩
    · unfold retrieveRecipe
      rw [hnone]
    · intro p
      unfold putRecipe
      rw [hnone]
    · intro p
      unfold patchRecipe
      rw [hnone]
    · unfold deleteRecipe
      rw [hnone]

/-- C4: on a recipe owned by the caller, a full update (PUT) whose payload
omits the tags/ingredients fields detaches all previously attached tags
and ingredients, while a partial update (PATCH) whose payload omits a
many-to-many field leaves that field's associations unchanged; fields
present in a PATCH payload are applied. -/
theorem update_put_clears_patch_preserves (db : Db) (uid rid : Nat)
    (r : Recipe) (p : RecipePayload) (hwf : db.WF)
    (hget : getRecipe db uid rid = some r) :
    putRecipe db uid rid p =
      Except.ok (setRecipe db rid (applyPut r p)) ∧
    getRecipe (setRecipe db rid (applyPut r p)) uid rid =
      some (applyPut r p) ∧
    (p.tags = none → (applyPut r p).tags = []) ∧
    (p.ingredients = none → (applyPut r p).ingredients = []) ∧
    patchRecipe db uid rid p =
      Except.ok (setRecipe db rid (applyPatch r p)) ∧
    getRecipe (setRecipe db rid (applyPatch r p)) uid rid =
      some (applyPatch r p) ∧
    (p.tags = none → (applyPatch r p).tags = r.tags) ∧
    (p.ingredients = none → (applyPatch r p).ingredients = r.ingredients) ∧
    (∀ s, p.title = some s → (applyPatch r p).title = s) ∧
    (∀ ts, p.tags = some ts → (applyPatch r p).tags = ts) := by
  have hids := getRecipe_some db uid rid r hget
  refine ⟨?_, ?_, ?_, ?_, ?_, ?_, ?_, ?_, ?_, ?_⟩
  · unfold putRecipe
    rw [hget]
  · exact find?_map_update db.recipes uid rid r (applyPut r p)
      hwf.2.2.2 hget hids.2.2 hids.2.1
  · intro h
    simp [applyPut, h]
  · intro h
    simp [applyPut, h]
  · unfold patchRecipe
    rw [hget]
  · exact find?_map_update db.recipes uid rid r (applyPatch r p)
      hwf.2.2.2 hget hids.2.2 hids.2.1
  · intro h
    simp [applyPatch, h]
  · intro h
    simp [applyPatch, h]
  · intro s h
    simp [applyPatch, h]
  · intro ts h
    simp [applyPatch, h]

/-! ## Witnesses -/

/-- Witness for C1 at a concrete store: users 1 and 2 are distinct, the
store is well-formed, and user 2's retrieve of user 1's recipe answers
404. -/
theorem ownership_isolation_witness :
    (1 : Nat) ≠ 2 ∧ dbW.WF ∧
      retrieveRecipe dbW 2 rW1.id = Except.error 404 := by
  refine ⟨by decide, by decide, ?_⟩
  exact ((ownership_isolation dbW 1 2 (by decide) (by decide)).2.2.2 rW1
    (by decide) rfl).1

/-- Witness for C2 at a concrete store: the tag attached to user 1's
recipe is listed under `assigned_only` and indeed has an associated
recipe. -/
theorem assigned_only_witness :
    tW1 ∈ listTags dbW 1 true ∧
      ∃ r ∈ dbW.recipes, r.user = 1 ∧ tW1.id ∈ r.tags := by
  have hm : tW1 ∈ listTags dbW 1 true := by decide
  exact ⟨hm, (assigned_only_nonempty_and_unique dbW 1).1 tW1 hm⟩

/-- Witness for C4 at a concrete store and payload: the payload omits the
many-to-many fields, so PUT clears the recipe's tags while PATCH keeps
them. -/
theorem update_witness :
    dbW.WF ∧ getRecipe dbW 1 1 = some rW1 ∧
      (applyPut rW1 pW).tags = [] ∧ (applyPatch rW1 pW).tags = rW1.tags := by
  have h := update_put_clears_patch_preserves dbW 1 1 rW1 pW
    (by decide) (by decide)
  exact ⟨by decide, by decide, h.2.2.1 rfl, h.2.2.2.2.2.2.1 rfl⟩

/-- Witness for C5 at a concrete input: a 2-character password is
rejected with 400. -/
theorem short_password_witness :
    ("pw".length < 8 ∧ ∀ u ∈ dbW.users, u.email ≠ "carol@example.com") ∧
      (create_user dbW "carol@example.com" "pw" "Carol").1.status = 400 := by
  refine ⟨⟨by decide, by decide⟩, ?_⟩
  exact (short_password_rejected dbW "carol@example.com" "pw" "Carol"
    (by decide) (by decide)).1

/-- Witness for C6 at a concrete store: with the correct password the
token endpoint answers 200. -/
theorem token_issuance_witness :
    dbW.WF ∧
      (tokenPost dbW "alice@example.com" "password123").status = 200 := by
  refine ⟨by decide, ?_⟩
  exact (token_issuance_spec dbW "alice@example.com" "password123"
      (by decide)).2.mpr
    ⟨by decide, by decide, uW, by decide, rfl, rfl, by decide⟩

/-- Witness for C8 at a concrete input: a valid registration answers
201. -/
theorem create_user_witness :
    (validEmail "bob@example.com" = true ∧ 8 ≤ "password123".length ∧
        ∀ u ∈ dbW.users, u.email ≠ "bob@example.com") ∧
      (create_user dbW "bob@example.com" "password123" "Bob").1.status
        = 201 := by
  refine ⟨⟨by decide, by decide, by decide⟩, ?_⟩
  exact (create_user_success_spec dbW "bob@example.com" "password123" "Bob"
    (by decide) (by decide) (by decide)).1

/-- Witness for C9 at a concrete store: deleting recipe 1 removes its
stored image file. -/
theorem delete_image_witness :
    getRecipe dbW 1 1 = some rW1 ∧ rW1.image = some "img1.jpg" ∧
      ∃ db', deleteRecipe dbW 1 1 = Except.ok db' ∧
        "img1.jpg" ∉ db'.files := by
  refine ⟨by decide, rfl, ?_⟩
  exact delete_recipe_removes_image dbW 1 1 rW1 "img1.jpg" (by decide) rfl

end RecipeApi
